import Mathlib

/-!
# Uploader configuration (`lib-gphotos/internal/uploader/uploader.go`)

A shallow embedding of the construction of an `Uploader`: the default
configuration, the three functional options, the loop that applies the options
and the final validation.

Modelling conventions.

* A Go pointer or interface value is `none` (nil) or `some x`.
* An option mutates the `Uploader` it is handed through a pointer; here it is
  a function from the configuration before the call to the configuration after.
* A Go function value may be nil, and calling a nil function is a runtime
  panic: an option value is `none` (nil) or `some f`, and a call that panics
  yields `none`.
-/

namespace uploader

/-- An `http.Client`, identified by the object the pointer refers to. -/
structure HttpClient where
  id : Nat
  deriving DecidableEq, Repr

/-- An implementation of the `UploadSessionStore` interface. The interface is
declared elsewhere in the package; only nil-ness and identity of a store value
matter to the code embedded here. -/
structure SessionStore where
  id : Nat
  deriving DecidableEq, Repr

/-- Destination of a logger's output. -/
inductive Writer where
  | stderr
  | other (id : Nat)
  deriving DecidableEq, Repr

/-- A `log.Logger` as built by `log.New(out, prefix, flag)`. -/
structure Logger where
  out : Writer
  linePrefix : String
  flags : Int
  deriving DecidableEq, Repr

/-- The package's error values. `ErrNilStore` is a package-level error variable
declared elsewhere in the package; it is returned by `Validate` by name. -/
inductive UploaderError where
  | ErrNilStore
  deriving DecidableEq, Repr

/-- Text written at the beginning of each log line. -/
def logPrefix : String := "gphotos-uploader: "

/-- The constant `logFlags`. -/
def logFlags : Int := 0

/-- API endpoint URL for upload media (`uploadEndpoint`). -/
def uploadEndpoint : String := "https://photoslibrary.googleapis.com/v1/uploads"

/-- The struct `Uploader`. -/
structure Uploader where
  /-- HTTP client (`*http.Client`). -/
  c : Option HttpClient
  /-- URL of the endpoint to upload to. -/
  url : String
  /-- If `resume` is true the session store is required. -/
  resume : Bool
  /-- The session store (`UploadSessionStore`, an interface value). -/
  store : Option SessionStore
  /-- The logger (`*log.Logger`). -/
  log : Option Logger
  deriving DecidableEq, Repr

/-- The type `Option` of the source, `func(*Uploader)`: nil, or a function that
updates the configuration it is given. (Named `OptionFunc` because `Option` is
taken.) -/
abbrev OptionFunc : Type := Option (Uploader → Uploader)

/-- Outcome of a call of `NewUploader`: a runtime panic, or the returned pair
`(*Uploader, error)`. -/
inductive Outcome where
  | panicked
  | returned (u : Option Uploader) (err : Option UploaderError)
  deriving DecidableEq

/-- The method `(*Uploader).Validate`. -/
def Uploader.Validate (u : Uploader) : Option UploaderError :=
  if u.resume && u.store == none then
    some UploaderError.ErrNilStore
  else
    none

/-- The function `OptionResumableUploads`. -/
def OptionResumableUploads (store : Option SessionStore) : OptionFunc :=
  some (fun c => { c with resume := true, store := store })

/-- The function `OptionLog`. -/
def OptionLog (l : Option Logger) : OptionFunc :=
  some (fun c => { c with log := l })

/-- The function `OptionEndpoint`. -/
def OptionEndpoint (url : String) : OptionFunc :=
  some (fun c => { c with url := url })

/-- The call `opt(u)`: `none` when `opt` is nil (the call panics). -/
def callOption (opt : OptionFunc) (u : Uploader) : Option Uploader :=
  match opt with
  | none => none
  | some f => some (f u)

/-- The loop `for _, opt := range options { opt(u) }`, started on `u`. -/
def applyOptions (u : Uploader) : List OptionFunc → Option Uploader
  | [] => some u
  | opt :: rest =>
    match callOption opt u with
    | none => none
    | some v => applyOptions v rest

/-- The struct literal `NewUploader` starts from. -/
def defaultUploader (client : Option HttpClient) : Uploader :=
  { c := client
    url := uploadEndpoint
    resume := false
    store := none
    log := some { out := Writer.stderr, linePrefix := logPrefix, flags := logFlags } }

/-- The function `NewUploader`. -/
def NewUploader (client : Option HttpClient) (options : List OptionFunc) : Outcome :=
  match applyOptions (defaultUploader client) options with
  | none => Outcome.panicked
  | some u =>
    match u.Validate with
    | some err => Outcome.returned none (some err)
    | none => Outcome.returned (some u) none

/-- The fields of an `Uploader` other than the logger: client, url, resume
flag and store. -/
def Uploader.settings (u : Uploader) :
    Option HttpClient × String × Bool × Option SessionStore :=
  (u.c, u.url, u.resume, u.store)

/-- What a caller sees of an outcome apart from the logger: whether the call
panicked, the error, whether an `Uploader` was returned and its settings. -/
def Outcome.settings :
    Outcome → Option (Option (Option HttpClient × String × Bool × Option SessionStore)
      × Option UploaderError)
  | Outcome.panicked => none
  | Outcome.returned u err => some (u.map Uploader.settings, err)

/-- An option whose effect on client, url, resume and store does not depend on
the logger of the configuration it is applied to. -/
def LogOblivious (opt : OptionFunc) : Prop :=
  ∀ u v : Uploader, u.settings = v.settings →
    (callOption opt u).map Uploader.settings = (callOption opt v).map Uploader.settings

/-- An option, written in the style of the package's own, that switches to
resumable mode when no logger is configured. -/
def resumeWhenSilent : OptionFunc :=
  some (fun c => if c.log = none then { c with resume := true } else c)

/-- The options the package builds that cannot invalidate a configuration:
`OptionEndpoint(e)`, `OptionLog(l)` and `OptionResumableUploads(s)` with a
non-nil store `s`. -/
def KeepsValid (opt : OptionFunc) : Prop :=
  (∃ e : String, opt = OptionEndpoint e) ∨
  (∃ l : Option Logger, opt = OptionLog l) ∨
  (∃ s : SessionStore, opt = OptionResumableUploads (some s))

/-! ## Lemmas on the option loop -/

lemma applyOptions_cons_some (f : Uploader → Uploader) (u : Uploader)
    (rest : List OptionFunc) :
    applyOptions u (some f :: rest) = applyOptions (f u) rest := rfl

lemma applyOptions_cons_none (u : Uploader) (rest : List OptionFunc) :
    applyOptions u (none :: rest) = none := rfl

lemma applyOptions_map_some (fs : List (Uploader → Uploader)) (u : Uploader) :
    applyOptions u (fs.map some) = some (fs.foldl (fun acc f => f acc) u) := by
  induction fs generalizing u with
  | nil => rfl
  | cons f fs ih => simpa [applyOptions_cons_some] using ih (f u)

lemma applyOptions_some_inv (options : List OptionFunc) (u v : Uploader)
    (h : applyOptions u options = some v) :
    ∃ fs : List (Uploader → Uploader),
      options = fs.map some ∧ v = fs.foldl (fun acc f => f acc) u := by
  induction options generalizing u with
  | nil =>
    refine ⟨[], rfl, ?_⟩
    simpa [applyOptions] using h.symm
  | cons opt rest ih =>
    cases opt with
    | none => simp [applyOptions_cons_none] at h
    | some f =>
      rw [applyOptions_cons_some] at h
      obtain ⟨fs, hfs, hv⟩ := ih (f u) h
      exact ⟨f :: fs, by simp [hfs], by simpa using hv⟩

lemma applyOptions_append (pre post : List OptionFunc) (u : Uploader) :
    applyOptions u (pre ++ post) =
      (applyOptions u pre).bind (fun v => applyOptions v post) := by
  induction pre generalizing u with
  | nil => rfl
  | cons opt rest ih =>
    cases opt with
    | none => rfl
    | some f => simpa [applyOptions_cons_some] using ih (f u)

lemma applyOptions_settings_congr (post : List OptionFunc)
    (hpost : ∀ o ∈ post, LogOblivious o) (u v : Uploader)
    (huv : u.settings = v.settings) :
    (applyOptions u post).map Uploader.settings =
      (applyOptions v post).map Uploader.settings := by
  induction post generalizing u v with
  | nil => simp [applyOptions, huv]
  | cons opt rest ih =>
    have hopt := hpost opt (List.mem_cons_self _ _) u v huv
    have hrest : ∀ o ∈ rest, LogOblivious o :=
      fun o ho => hpost o (List.mem_cons_of_mem _ ho)
    cases opt with
    | none => rfl
    | some f =>
      rw [applyOptions_cons_some, applyOptions_cons_some]
      apply ih hrest
      simpa [callOption] using hopt

lemma Validate_settings_congr (u v : Uploader) (huv : u.settings = v.settings) :
    u.Validate = v.Validate := by
  simp only [Uploader.settings, Prod.mk.injEq] at huv
  simp [Uploader.Validate, huv.2.2.1, huv.2.2.2]

lemma NewUploader_of_applyOptions (client : Option HttpClient)
    (options : List OptionFunc) (u : Uploader)
    (h : applyOptions (defaultUploader client) options = some u) :
    NewUploader client options =
      match u.Validate with
      | some err => Outcome.returned none (some err)
      | none => Outcome.returned (some u) none := by
  simp [NewUploader, h]

lemma NewUploader_settings_congr (client : Option HttpClient)
    (xs ys : List OptionFunc)
    (h : (applyOptions (defaultUploader client) xs).map Uploader.settings =
      (applyOptions (defaultUploader client) ys).map Uploader.settings) :
    (NewUploader client xs).settings = (NewUploader client ys).settings := by
  unfold NewUploader
  cases hx : applyOptions (defaultUploader client) xs with
  | none =>
    cases hy : applyOptions (defaultUploader client) ys with
    | none => rfl
    | some v => simp [hx, hy] at h
  | some u =>
    cases hy : applyOptions (defaultUploader client) ys with
    | none => simp [hx, hy] at h
    | some v =>
      have huv : u.settings = v.settings := by simpa [hx, hy] using h
      have hval := Validate_settings_congr u v huv
      cases hv : v.Validate with
      | none => simp [hval, hv, Outcome.settings, huv]
      | some err => simp [hval, hv, Outcome.settings]

lemma Validate_eq_none_iff (u : Uploader) :
    u.Validate = none ↔ ¬ (u.resume = true ∧ u.store = none) := by
  cases hr : u.resume <;> cases hs : u.store <;> simp [Uploader.Validate, hr, hs]

lemma applyOptions_keepsValid (later : List OptionFunc)
    (hlater : ∀ o ∈ later, KeepsValid o) (u : Uploader) (hu : u.Validate = none) :
    ∃ v : Uploader, applyOptions u later = some v ∧ v.Validate = none := by
  induction later generalizing u with
  | nil => exact ⟨u, rfl, hu⟩
  | cons opt rest ih =>
    have hrest : ∀ o ∈ rest, KeepsValid o :=
      fun o ho => hlater o (List.mem_cons_of_mem _ ho)
    rcases hlater opt (List.mem_cons_self _ _) with ⟨e, rfl⟩ | ⟨l, rfl⟩ | ⟨s, rfl⟩
    · exact ih hrest _ (by simpa [Uploader.Validate] using hu)
    · exact ih hrest _ (by simpa [Uploader.Validate] using hu)
    · exact ih hrest _ (by simp [Uploader.Validate])

/-! ## Validation -/

/-- C3: for every `Uploader` value, `Validate` returns `ErrNilStore` exactly
when `resume` is true and `store` is nil, and returns nil (no error) exactly in
every other case. -/
theorem Validate_spec (u : Uploader) :
    (u.Validate = some UploaderError.ErrNilStore ↔ (u.resume = true ∧ u.store = none)) ∧
    (u.Validate = none ↔ ¬ (u.resume = true ∧ u.store = none)) := by
  cases hr : u.resume <;> cases hs : u.store <;> simp [Uploader.Validate, hr, hs]

/-! ## Construction -/

/-- C1: if applying the options in order to the defaults gives a configuration
with `resume = true` and `store = nil`, `NewUploader` returns a nil `Uploader`
and `ErrNilStore`; in particular `NewUploader(client, OptionResumableUploads(nil))`
fails with `ErrNilStore` for every client. -/
theorem NewUploader_resume_without_store (client : Option HttpClient) :
    (∀ (options : List OptionFunc) (u : Uploader),
      applyOptions (defaultUploader client) options = some u →
      u.resume = true → u.store = none →
      NewUploader client options =
        Outcome.returned none (some UploaderError.ErrNilStore)) ∧
    NewUploader client [OptionResumableUploads none] =
      Outcome.returned none (some UploaderError.ErrNilStore) := by
  refine ⟨?_, rfl⟩
  intro options u hcfg hres hst
  rw [NewUploader_of_applyOptions client options u hcfg]
  simp [Uploader.Validate, hres, hst]

/-- Instance of C1: an endpoint option followed by resumable mode with a nil
store. -/
theorem NewUploader_resume_without_store_witness :
    applyOptions (defaultUploader (some ⟨1⟩))
        [OptionEndpoint "http://localhost/up", OptionResumableUploads none] =
      some { c := some ⟨1⟩, url := "http://localhost/up", resume := true, store := none,
             log := some { out := Writer.stderr, linePrefix := logPrefix,
                           flags := logFlags } } ∧
    NewUploader (some ⟨1⟩)
        [OptionEndpoint "http://localhost/up", OptionResumableUploads none] =
      Outcome.returned none (some UploaderError.ErrNilStore) :=
  ⟨rfl, (NewUploader_resume_without_store (some ⟨1⟩)).1
    [OptionEndpoint "http://localhost/up", OptionResumableUploads none] _ rfl rfl rfl⟩

/-- C2, as stated, fails: the `Uploader` returned by `NewUploader` is handed
out by pointer and the options are functions on that pointer, so the
configuration error can arise after construction. `NewUploader(nil)` succeeds;
`OptionResumableUploads(nil)` applied to the returned `Uploader` leaves it in
resumable mode without a store, and `Validate` then returns `ErrNilStore`. -/
theorem NewUploader_ok_then_invalidated :
    NewUploader none [] = Outcome.returned (some (defaultUploader none)) none ∧
    callOption (OptionResumableUploads none) (defaultUploader none) =
      some { defaultUploader none with resume := true, store := none } ∧
    Uploader.Validate { defaultUploader none with resume := true, store := none } =
      some UploaderError.ErrNilStore ∧
    ¬ (∀ (client : Option HttpClient) (options later : List OptionFunc) (u v : Uploader),
        NewUploader client options = Outcome.returned (some u) none →
        applyOptions u later = some v →
        v.Validate = none) := by
  refine ⟨rfl, rfl, rfl, fun h => ?_⟩
  have hbad := h none [] [OptionResumableUploads none] (defaultUploader none)
    { defaultUploader none with resume := true, store := none } rfl rfl
  simp [Uploader.Validate] at hbad

/-- C2, amended: whenever `NewUploader` returns without error, the returned
`Uploader` is non-nil and, as returned, passes `Validate`, that is `resume =
false` or `store` is non-nil. It stays valid under any later sequence of
`OptionEndpoint`, `OptionLog` and `OptionResumableUploads` with a non-nil
store applied to it. -/
theorem NewUploader_ok_valid (client : Option HttpClient) (options : List OptionFunc)
    (r : Option Uploader) (h : NewUploader client options = Outcome.returned r none) :
    ∃ u : Uploader, r = some u ∧ u.Validate = none ∧
      (u.resume = false ∨ u.store ≠ none) ∧
      ∀ later : List OptionFunc, (∀ o ∈ later, KeepsValid o) →
        ∃ v : Uploader, applyOptions u later = some v ∧ v.Validate = none := by
  unfold NewUploader at h
  cases hcfg : applyOptions (defaultUploader client) options with
  | none => simp [hcfg] at h
  | some u =>
    cases hv : u.Validate with
    | some err => simp [hcfg, hv] at h
    | none =>
      simp only [hcfg, hv, Outcome.returned.injEq, and_true] at h
      refine ⟨u, h.symm, hv, ?_, fun later hlater =>
        applyOptions_keepsValid later hlater u hv⟩
      have hnot := (Validate_eq_none_iff u).1 hv
      cases hr : u.resume with
      | false => exact Or.inl rfl
      | true => exact Or.inr (fun hs => hnot ⟨hr, hs⟩)

/-- Instance of C2 amended: resumable mode with a store succeeds, the result is
valid, and stays valid when its endpoint is changed afterwards. -/
theorem NewUploader_ok_valid_witness :
    NewUploader none [OptionResumableUploads (some ⟨7⟩)] =
      Outcome.returned
        (some { c := none, url := uploadEndpoint, resume := true, store := some ⟨7⟩,
                log := some { out := Writer.stderr, linePrefix := logPrefix,
                              flags := logFlags } }) none ∧
    (∀ o ∈ [OptionEndpoint "http://localhost/up"], KeepsValid o) ∧
    ∃ v : Uploader,
      applyOptions
          { c := none, url := uploadEndpoint, resume := true, store := some ⟨7⟩,
            log := some { out := Writer.stderr, linePrefix := logPrefix,
                          flags := logFlags } }
          [OptionEndpoint "http://localhost/up"] = some v ∧
      v.Validate = none :=
  have hlater : ∀ o ∈ [OptionEndpoint "http://localhost/up"], KeepsValid o := by
    intro o ho
    rw [List.mem_singleton] at ho
    exact Or.inl ⟨_, ho⟩
  ⟨rfl, hlater, by
    obtain ⟨u, hu, _, _, hkeep⟩ :=
      NewUploader_ok_valid none [OptionResumableUploads (some ⟨7⟩)] _ rfl
    cases hu
    exact hkeep _ hlater⟩

/-- C4: with no options `NewUploader` returns no error and an `Uploader` that
uses the given client, the upload URL of the Photos Library API, `resume =
false` and a nil store. -/
theorem NewUploader_defaults (client : Option HttpClient) :
    ∃ u : Uploader, NewUploader client [] = Outcome.returned (some u) none ∧
      u.c = client ∧
      u.url = "https://photoslibrary.googleapis.com/v1/uploads" ∧
      u.resume = false ∧ u.store = none :=
  ⟨defaultUploader client, rfl, rfl, rfl, rfl, rfl⟩

/-- C5: `OptionResumableUploads(s)` sets `resume` to true and `store` to `s` and
leaves client, url and log unchanged; with a non-nil store `s`,
`NewUploader(client, OptionResumableUploads(s))` succeeds with `resume = true`
and `store = s`. -/
theorem OptionResumableUploads_spec :
    (∀ (s : Option SessionStore) (u : Uploader),
      ∃ v : Uploader, callOption (OptionResumableUploads s) u = some v ∧
        v.resume = true ∧ v.store = s ∧ v.c = u.c ∧ v.url = u.url ∧ v.log = u.log) ∧
    (∀ (client : Option HttpClient) (s : SessionStore),
      ∃ v : Uploader,
        NewUploader client [OptionResumableUploads (some s)] =
          Outcome.returned (some v) none ∧
        v.resume = true ∧ v.store = some s) := by
  refine ⟨fun s u => ⟨_, rfl, rfl, rfl, rfl, rfl, rfl⟩, fun client s => ?_⟩
  exact ⟨{ defaultUploader client with resume := true, store := some s },
    rfl, rfl, rfl⟩

/-- C6: `OptionEndpoint(e)` sets `url` to `e` and leaves client, resume, store
and log unchanged; for every client and string `e`, the empty string included,
`NewUploader(client, OptionEndpoint(e))` succeeds with `url = e`, `resume =
false` and `store = nil`. -/
theorem OptionEndpoint_spec :
    (∀ (e : String) (u : Uploader),
      ∃ v : Uploader, callOption (OptionEndpoint e) u = some v ∧
        v.url = e ∧ v.c = u.c ∧ v.resume = u.resume ∧ v.store = u.store ∧
        v.log = u.log) ∧
    (∀ (client : Option HttpClient) (e : String),
      ∃ v : Uploader,
        NewUploader client [OptionEndpoint e] = Outcome.returned (some v) none ∧
        v.url = e ∧ v.resume = false ∧ v.store = none) ∧
    (∀ client : Option HttpClient,
      ∃ v : Uploader,
        NewUploader client [OptionEndpoint ""] = Outcome.returned (some v) none ∧
        v.url = "" ∧ v.resume = false ∧ v.store = none) := by
  refine ⟨fun e u => ⟨_, rfl, rfl, rfl, rfl, rfl, rfl⟩, fun client e => ?_,
    fun client => ?_⟩
  · exact ⟨{ defaultUploader client with url := e }, rfl, rfl, rfl, rfl⟩
  · exact ⟨{ defaultUploader client with url := "" }, rfl, rfl, rfl, rfl⟩

/-- C7, as stated, fails: with an option that reads the logger later in the
list, putting `OptionLog(nil)` in front of it turns a successful construction
into one that fails with `ErrNilStore`. -/
theorem OptionLog_insertion_changes_outcome :
    NewUploader none [resumeWhenSilent] =
      Outcome.returned (some (defaultUploader none)) none ∧
    NewUploader none [OptionLog none, resumeWhenSilent] =
      Outcome.returned none (some UploaderError.ErrNilStore) ∧
    ¬ (∀ (client : Option HttpClient) (l : Option Logger) (pre post : List OptionFunc),
        (NewUploader client (pre ++ OptionLog l :: post)).settings =
          (NewUploader client (pre ++ post)).settings) := by
  refine ⟨rfl, rfl, fun h => ?_⟩
  have hbad := h none none [] [resumeWhenSilent]
  have h1 : NewUploader none ([] ++ OptionLog none :: [resumeWhenSilent]) =
      Outcome.returned none (some UploaderError.ErrNilStore) := rfl
  have h2 : NewUploader none ([] ++ [resumeWhenSilent]) =
      Outcome.returned (some (defaultUploader none)) none := rfl
  rw [h1, h2] at hbad
  simp [Outcome.settings] at hbad

/-- C7, amended: `OptionLog(l)` sets `log` to `l` and leaves client, url, resume
and store unchanged; so, when the options that follow it act on client, url,
resume and store independently of the logger, adding or removing an
`OptionLog` anywhere in the list changes neither whether `NewUploader` succeeds
or fails nor the client, url, resume and store of the result. The options built
by `OptionResumableUploads`, `OptionLog` and `OptionEndpoint`, and the nil
option, are of that kind. -/
theorem OptionLog_frame :
    (∀ (l : Option Logger) (u : Uploader),
      ∃ v : Uploader, callOption (OptionLog l) u = some v ∧
        v.log = l ∧ v.c = u.c ∧ v.url = u.url ∧ v.resume = u.resume ∧
        v.store = u.store) ∧
    (∀ (client : Option HttpClient) (l : Option Logger) (pre post : List OptionFunc),
      (∀ o ∈ post, LogOblivious o) →
      (NewUploader client (pre ++ OptionLog l :: post)).settings =
        (NewUploader client (pre ++ post)).settings) ∧
    (∀ s : Option SessionStore, LogOblivious (OptionResumableUploads s)) ∧
    (∀ l : Option Logger, LogOblivious (OptionLog l)) ∧
    (∀ e : String, LogOblivious (OptionEndpoint e)) ∧
    LogOblivious none := by
  refine ⟨fun l u => ⟨_, rfl, rfl, rfl, rfl, rfl, rfl⟩, ?_, ?_, ?_, ?_, ?_⟩
  · intro client l pre post hpost
    apply NewUploader_settings_congr
    rw [applyOptions_append, applyOptions_append]
    cases applyOptions (defaultUploader client) pre with
    | none => rfl
    | some w =>
      show (applyOptions w (OptionLog l :: post)).map Uploader.settings =
        (applyOptions w post).map Uploader.settings
      exact applyOptions_settings_congr post hpost _ w rfl
  · intro s u v huv
    simp only [Uploader.settings, Prod.mk.injEq] at huv
    simp [OptionResumableUploads, callOption, Uploader.settings, huv.1, huv.2.1]
  · intro l u v huv
    simpa [OptionLog, callOption, Uploader.settings] using huv
  · intro e u v huv
    simp only [Uploader.settings, Prod.mk.injEq] at huv
    simp [OptionEndpoint, callOption, Uploader.settings, huv.1, huv.2.2.1, huv.2.2.2]
  · intro u v _
    rfl

/-- Instance of C7 amended: a logger option placed between an endpoint option
and a resumable-uploads option. -/
theorem OptionLog_frame_witness :
    (∀ o ∈ [OptionResumableUploads (some ⟨3⟩)], LogOblivious o) ∧
    (NewUploader (some ⟨1⟩)
        ([OptionEndpoint "http://localhost/up"] ++
          OptionLog none :: [OptionResumableUploads (some ⟨3⟩)])).settings =
      (NewUploader (some ⟨1⟩)
        ([OptionEndpoint "http://localhost/up"] ++
          [OptionResumableUploads (some ⟨3⟩)])).settings :=
  have hpost : ∀ o ∈ [OptionResumableUploads (some ⟨3⟩)], LogOblivious o := by
    intro o ho
    rw [List.mem_singleton] at ho
    subst ho
    exact OptionLog_frame.2.2.1 _
  ⟨hpost, OptionLog_frame.2.1 (some ⟨1⟩) none [OptionEndpoint "http://localhost/up"]
    [OptionResumableUploads (some ⟨3⟩)] hpost⟩

/-- C8: `NewUploader` applies its options left to right to the defaults and
validates once, after the last option. On success the returned `Uploader` is
the left fold of the options over the defaults; the outcome is decided by
validating that fold alone; a later option overrides an earlier one on the same
field; an invalid intermediate configuration does not cause failure. -/
theorem NewUploader_left_fold (client : Option HttpClient) :
    (∀ (options : List OptionFunc) (u : Uploader),
      NewUploader client options = Outcome.returned (some u) none →
      ∃ fs : List (Uploader → Uploader), options = fs.map some ∧
        u = fs.foldl (fun acc f => f acc) (defaultUploader client)) ∧
    (∀ fs : List (Uploader → Uploader),
      NewUploader client (fs.map some) =
        if (fs.foldl (fun acc f => f acc) (defaultUploader client)).Validate = none then
          Outcome.returned
            (some (fs.foldl (fun acc f => f acc) (defaultUploader client))) none
        else
          Outcome.returned none (some UploaderError.ErrNilStore)) ∧
    (∀ a b : String, ∃ u : Uploader,
      NewUploader client [OptionEndpoint a, OptionEndpoint b] =
        Outcome.returned (some u) none ∧ u.url = b) ∧
    (∀ s : SessionStore, ∃ w u : Uploader,
      applyOptions (defaultUploader client) [OptionResumableUploads none] = some w ∧
      w.Validate = some UploaderError.ErrNilStore ∧
      NewUploader client [OptionResumableUploads none, OptionResumableUploads (some s)] =
        Outcome.returned (some u) none ∧
      u.resume = true ∧ u.store = some s) := by
  refine ⟨?_, ?_, ?_, ?_⟩
  · intro options u h
    unfold NewUploader at h
    cases hcfg : applyOptions (defaultUploader client) options with
    | none => simp [hcfg] at h
    | some w =>
      cases hv : w.Validate with
      | some err => simp [hcfg, hv] at h
      | none =>
        simp only [hcfg, hv, Outcome.returned.injEq, Option.some.injEq, and_true] at h
        subst h
        exact applyOptions_some_inv options _ _ hcfg
  · intro fs
    rw [NewUploader_of_applyOptions client _ _ (applyOptions_map_some fs _)]
    cases hv : (fs.foldl (fun acc f => f acc) (defaultUploader client)).Validate with
    | none => simp
    | some err => cases err; simp
  · intro a b
    exact ⟨{ defaultUploader client with url := b }, rfl, rfl⟩
  · intro s
    exact ⟨{ defaultUploader client with resume := true, store := none },
      { defaultUploader client with resume := true, store := some s },
      rfl, rfl, rfl, rfl, rfl⟩

/-- Instance of C8: two endpoint options, the second wins. -/
theorem NewUploader_left_fold_witness :
    NewUploader none [OptionEndpoint "a", OptionEndpoint "b"] =
      Outcome.returned
        (some { c := none, url := "b", resume := false, store := none,
                log := some { out := Writer.stderr, linePrefix := logPrefix,
                              flags := logFlags } }) none ∧
    ∃ fs : List (Uploader → Uploader),
      [OptionEndpoint "a", OptionEndpoint "b"] = fs.map some ∧
      ({ c := none, url := "b", resume := false, store := none,
         log := some { out := Writer.stderr, linePrefix := logPrefix,
                       flags := logFlags } } : Uploader) =
        fs.foldl (fun acc f => f acc) (defaultUploader none) :=
  ⟨rfl, (NewUploader_left_fold none).1 [OptionEndpoint "a", OptionEndpoint "b"] _ rfl⟩

end uploader
